import Mathlib

/-! # pioj: the problem handlers of `app/problems.go`

A shallow embedding of the two HTTP handlers registered by `HandleProblems`
(`/api/problem/create` and `/api/problem/get`) over an explicit model of the
`problems` collection, followed by the properties of ID allocation proved
about them.

Modelling conventions.

* The collection is the list of its documents in insertion order; `InsertOne`
  appends.  A document either decodes into a `Problem` (what the create handler
  writes) or carries an `id` key but fails to decode (what the test `get 500`
  inserts: a `title` that is a string instead of a map).
* Go `int` is the 64-bit two's complement integer of the usual targets:
  `last.ID + 1` is computed in `Int` and wrapped by `wrapInt`.
* A driver call either completes against the collection or fails; the failure
  of each call is an input (`Env`), so that a read and the following insert can
  fail independently.  An `InsertOne` that returns an error may or may not have
  been applied by the server, and the server refuses a document whose `_id` is
  already stored.
* The body of a get request is kept as sent, so that a number that is no Go
  `int` is a decoding error.
* `primitive.NewObjectID()` is an input (`Env.newObjectID`).
* A response is its status code and, for the JSON answers, the encoded problem.
-/

namespace Pioj

/-! ## Data model (`problems.go`, lines 14-39) -/

/-- The 12-byte `primitive.ObjectID`, kept abstract as a number. -/
abbrev ObjectID := Nat

/-- Modelled from the spec: the declaration of `LocalizedStrings` is not in
`problems.go`.  The spec leaves the content of a problem open beyond its
identifier; the test sends `{"title": {"en": ...}}` and reads
`problem.Title["en"]`, so the type is a string-keyed map of strings, kept here
as its list of entries. -/
abbrev LocalizedStrings := List (String × String)

/-- Go `type IOExample [2]string`. -/
abbrev IOExample := String × String

/-- Go `type ProblemTag string`. -/
abbrev ProblemTag := String

/-- Go `type TestCase [2]string`. -/
abbrev TestCase := String × String

/-- Go `type Subtask []TestCase`. -/
abbrev Subtask := List TestCase

/-- Go `type Problem struct` (lines 22-39), field by field. -/
structure Problem where
  ObjectId : ObjectID
  ID : Int
  Title : LocalizedStrings
  Difficulty : Int
  InputFile : String
  OutputFile : String
  TimeLimit : Int
  MemoryLimit : Int
  Background : LocalizedStrings
  Description : LocalizedStrings
  InputFormat : LocalizedStrings
  OutputFormat : LocalizedStrings
  Examples : List IOExample
  Hints : LocalizedStrings
  Tags : List ProblemTag
  Subtasks : List Subtask
  deriving DecidableEq, Repr

/-! ## Go `int` -/

/-- Largest Go `int` (64-bit): `2^63 - 1`. -/
def maxInt : Int := 9223372036854775807

/-- Smallest Go `int` (64-bit): `-2^63`. -/
def minInt : Int := -9223372036854775808

/-- Two's complement wrap-around of a mathematical integer into the Go `int`
range; Go's `+` on `int` is `wrapInt (a + b)`. -/
def wrapInt (x : Int) : Int :=
  (x + 9223372036854775808) % 18446744073709551616 - 9223372036854775808

/-! ## The `problems` collection -/

/-- A stored document. -/
inductive Doc where
  /-- a document that decodes into the given `Problem` (its `id` key is `p.ID`) -/
  | problem (p : Problem)
  /-- a document with the given `_id` and `id` keys that does not decode into a
  `Problem` -/
  | malformed (oid : ObjectID) (id : Int)
  deriving DecidableEq, Repr

/-- The value of the `id` key of a document. -/
def Doc.id : Doc → Int
  | .problem p => p.ID
  | .malformed _ id => id

/-- The value of the `_id` key of a document. -/
def Doc.oid : Doc → ObjectID
  | .problem p => p.ObjectId
  | .malformed oid _ => oid

/-- The errors a `FindOne(...).Decode(...)` can end in, as far as the handlers
distinguish them: `mongo.ErrNoDocuments` against everything else. -/
inductive StoreErr where
  | noDocuments
  | clientDisconnected
  | decodeFailure
  deriving DecidableEq, Repr

/-- The call `SingleResult.Decode(&problem)` on a found document. -/
def decodeDoc : Doc → Except StoreErr Problem
  | .problem p => .ok p
  | .malformed _ _ => .error .decodeFailure

/-- The document selected by `FindOne` with the sort `{"id": -1}` and the empty
filter: one with the largest `id`, the earliest inserted among equals. -/
def findMaxID : List Doc → Option Doc
  | [] => none
  | d :: ds =>
    match findMaxID ds with
    | none => some d
    | some m => if d.id < m.id then some m else some d

/-- The read `FindOne(ctx, bson.D{}, options.FindOne().SetSort({"id": -1})).Decode(&last)`
(lines 50-52); `fails` says the driver call itself failed. -/
def findOneSorted (docs : List Doc) (fails : Bool) : Except StoreErr Problem :=
  if fails then .error .clientDisconnected
  else
    match findMaxID docs with
    | none => .error .noDocuments
    | some d => decodeDoc d

/-- The read `FindOne(ctx, bson.D{{Key: "id", Value: id}}).Decode(&problem)`
(lines 79-81). -/
def findOneByID (docs : List Doc) (fails : Bool) (id : Int) : Except StoreErr Problem :=
  if fails then .error .clientDisconnected
  else
    match docs.find? (fun d => d.id == id) with
    | none => .error .noDocuments
    | some d => decodeDoc d

/-- What can go wrong with an `InsertOne` call between the handler and the
server. -/
inductive InsertFault where
  /-- the call reaches the server and the server's reply reaches the handler -/
  | none
  /-- the call fails before the server applies anything (the connection is gone) -/
  | beforeWrite
  /-- the server handles the call, but the handler gets an error instead of the
  reply (the connection drops or the deadline passes after the write) -/
  | afterWrite
  deriving DecidableEq, Repr

/-- The call `InsertOne(ctx, problem)` (line 63): the collection afterwards, and
whether the returned `err` is non-nil.  The server appends the document unless
its `_id` is already stored, which is a duplicate-key error. -/
def insertOne (docs : List Doc) (fault : InsertFault) (problem : Problem) :
    List Doc × Bool :=
  match fault with
  | .beforeWrite => (docs, true)
  | .none =>
    if docs.any (fun d => d.oid == problem.ObjectId) then (docs, true)
    else (docs ++ [.problem problem], false)
  | .afterWrite =>
    if docs.any (fun d => d.oid == problem.ObjectId) then (docs, true)
    else (docs ++ [.problem problem], true)

/-! ## The handlers -/

/-- What a handler call receives from outside the collection: whether its
`FindOne` fails, what happens to its `InsertOne`, and the value of
`primitive.NewObjectID()`. -/
structure Env where
  findFails : Bool
  insertFault : InsertFault
  newObjectID : ObjectID
  deriving DecidableEq, Repr

/-- The answer written to the `http.ResponseWriter`. -/
structure Response where
  status : Nat
  body : Option Problem
  deriving DecidableEq, Repr

/-- Lines 63-68 of the create handler: the insert of the prepared document and
the answer, 507 when `InsertOne` returned an error and otherwise the document
as JSON. -/
def insertAndRespond (docs : List Doc) (fault : InsertFault) (problem : Problem) :
    List Doc × Response :=
  let r := insertOne docs fault problem
  if r.2 then (r.1, ⟨507, none⟩) else (r.1, ⟨200, some problem⟩)

/-- The handler of `/api/problem/create` (lines 42-69).  `body` is the outcome
of `json.NewDecoder(r.Body).Decode(&problem)`: `none` for a decoding error.
Returns the collection afterwards and the response. -/
def handleCreate (docs : List Doc) (env : Env) (body : Option Problem) :
    List Doc × Response :=
  match body with
  | none => (docs, ⟨400, none⟩)
  | some problem =>
    -- lines 49-60: the switch on the outcome of the read; `none` is its `return`
    let assigned : Option Problem :=
      match findOneSorted docs env.findFails with
      | .error .noDocuments => some { problem with ID := 1 }
      | .ok last => some { problem with ID := wrapInt (last.ID + 1) }
      | .error _ => none
    match assigned with
    | none => (docs, ⟨500, none⟩)
    | some problem =>
      -- line 61, then lines 63-68
      insertAndRespond docs env.insertFault { problem with ObjectId := env.newObjectID }

/-- The body of a get request as it is sent. -/
inductive GetBody where
  /-- a body that is not the JSON of an object with an integer `id` -/
  | malformed
  /-- a JSON object without the key `id` -/
  | noID
  /-- a JSON object whose `id` is the given integer literal -/
  | id (n : Int)
  deriving DecidableEq, Repr

/-- The call `json.NewDecoder(r.Body).Decode(&body)` for `var body struct{ ID int }`
(lines 72-73): the decoded `body.ID`, or `none` for an error.  A number outside
the range of Go `int` is an error; a missing key leaves the zero value. -/
def decodeGetBody : GetBody → Option Int
  | .malformed => none
  | .noID => some 0
  | .id n => if minInt ≤ n ∧ n ≤ maxInt then some n else none

/-- The handler of `/api/problem/get` (lines 71-91). -/
def handleGet (docs : List Doc) (fails : Bool) (body : GetBody) :
    List Doc × Response :=
  match decodeGetBody body with
  | none => (docs, ⟨400, none⟩)
  | some id =>
    match findOneByID docs fails id with
    | .error .noDocuments => (docs, ⟨404, none⟩)
    | .ok problem => (docs, ⟨200, some problem⟩)
    | .error _ => (docs, ⟨500, none⟩)

/-- Create requests served one after another: each handler call runs on the
collection the previous one left. -/
def runCreates : List Doc → List (Env × Option Problem) → List Doc × List Response
  | docs, [] => (docs, [])
  | docs, (env, body) :: rest =>
    let r := handleCreate docs env body
    let rs := runCreates r.1 rest
    (rs.1, r.2 :: rs.2)

/-! ## Two create requests in flight

The handler does two store calls, the read of lines 50-52 and the insert of
line 63; each is atomic on the collection, and between them another request may
run.  A request in flight is therefore in one of three control states. -/

/-- Control state of one create request whose body has been decoded. -/
inductive CreateReq where
  /-- before the `FindOne` of line 50, holding the decoded body -/
  | decoded (problem : Problem)
  /-- after line 61, before the `InsertOne` of line 63, holding the document to insert -/
  | prepared (problem : Problem)
  /-- the response has been written -/
  | finished (resp : Response)
  deriving DecidableEq, Repr

/-- One store call of a create request (lines 49-61, then lines 63-68). -/
def CreateReq.step (env : Env) (docs : List Doc) : CreateReq → List Doc × CreateReq
  | .decoded problem =>
    match findOneSorted docs env.findFails with
    | .error .noDocuments =>
      (docs, .prepared { problem with ID := 1, ObjectId := env.newObjectID })
    | .ok last =>
      (docs, .prepared { problem with ID := wrapInt (last.ID + 1), ObjectId := env.newObjectID })
    | .error _ => (docs, .finished ⟨500, none⟩)
  | .prepared problem =>
    let r := insertAndRespond docs env.insertFault problem
    (r.1, .finished r.2)
  | .finished resp => (docs, .finished resp)

/-- The ID of the problem a finished request created, if it created one. -/
def CreateReq.createdID : CreateReq → Option Int
  | .finished ⟨200, some problem⟩ => some problem.ID
  | _ => none

/-- Two create requests sharing the collection. -/
structure Race where
  docs : List Doc
  first : CreateReq
  second : CreateReq
  deriving DecidableEq, Repr

/-- The scheduler lets one of the two requests do its next store call:
`false` the first request, `true` the second. -/
def Race.step (envA envB : Env) (s : Race) (who : Bool) : Race :=
  if who then
    let r := s.second.step envB s.docs
    ⟨r.1, s.first, r.2⟩
  else
    let r := s.first.step envA s.docs
    ⟨r.1, r.2, s.second⟩

/-- Run a schedule. -/
def Race.run (envA envB : Env) : Race → List Bool → Race
  | s, [] => s
  | s, who :: rest => Race.run envA envB (Race.step envA envB s who) rest

/-- A schedule is an interleaving of the two requests when each gets exactly
its two store calls. -/
def IsInterleaving (sched : List Bool) : Prop :=
  sched.count false = 2 ∧ sched.count true = 2

/-- The two interleavings in which one request has inserted before the other
one reads. -/
def IsSerial (sched : List Bool) : Prop :=
  sched = [false, false, true, true] ∨ sched = [true, true, false, false]

/-! ## Vocabulary of the properties -/

/-- The number `m` is the largest `id` stored in the collection. -/
def IsLargestID (docs : List Doc) (m : Int) : Prop :=
  (∃ d ∈ docs, d.id = m) ∧ ∀ d ∈ docs, d.id ≤ m

instance (docs : List Doc) (m : Int) : Decidable (IsLargestID docs m) := by
  unfold IsLargestID; infer_instance

/-- The max-ID read of the create handler succeeds: it ends in a decoded
document or in `mongo.ErrNoDocuments`. -/
def readSucceeds (docs : List Doc) (env : Env) : Bool :=
  match findOneSorted docs env.findFails with
  | .ok _ => true
  | .error .noDocuments => true
  | .error _ => false

instance (sched : List Bool) : Decidable (IsInterleaving sched) := by
  unfold IsInterleaving; infer_instance

instance (sched : List Bool) : Decidable (IsSerial sched) := by
  unfold IsSerial; infer_instance

/-- Every stored `id` is a Go `int` below the largest one, so that adding one
to it does not overflow. -/
def BelowMaxInt (docs : List Doc) : Prop :=
  ∀ d ∈ docs, minInt ≤ d.id ∧ d.id < maxInt

instance (docs : List Doc) : Decidable (BelowMaxInt docs) := by
  unfold BelowMaxInt; infer_instance

/-- The ID that the lines 49-60 allocate on the collection `docs` when the read
succeeds: 1 on the empty collection, otherwise Go's successor of the `ID` of a
stored problem that no stored `id` exceeds. -/
def IsNextID (docs : List Doc) (id : Int) : Prop :=
  (docs = [] ∧ id = 1) ∨
  ∃ last : Problem, Doc.problem last ∈ docs ∧ (∀ d ∈ docs, d.id ≤ last.ID) ∧
    id = wrapInt (last.ID + 1)

/-- The IDs `1, 2, ..., n`. -/
def idsUpTo (n : Nat) : List Int :=
  (List.range' 1 n).map Int.ofNat

/-- A problem with the given English title and every other field zero, as the
test's create requests decode. -/
def titled (title : String) : Problem :=
  { ObjectId := 0, ID := 0, Title := [("en", title)], Difficulty := 0,
    InputFile := "", OutputFile := "", TimeLimit := 0, MemoryLimit := 0,
    Background := [], Description := [], InputFormat := [], OutputFormat := [],
    Examples := [], Hints := [], Tags := [], Subtasks := [] }

/-- A handler call in which no store call fails. -/
def okEnv (oid : ObjectID) : Env :=
  ⟨false, .none, oid⟩

/-- The test's three create requests, `"Problem 1"` to `"Problem 3"`. -/
def threeCreates : List (Env × Option Problem) :=
  [(okEnv 101, some (titled "Problem 1")), (okEnv 102, some (titled "Problem 2")),
   (okEnv 103, some (titled "Problem 3"))]

/-- A collection holding one problem whose ID is the largest Go `int`. -/
def docsAtMaxInt : List Doc :=
  [.problem { titled "Problem" with ID := 9223372036854775807, ObjectId := 1 }]

/-- A collection holding two problems, with the largest and the smallest Go
`int` as IDs. -/
def docsAtBothEnds : List Doc :=
  [.problem { titled "Problem" with ID := 9223372036854775807, ObjectId := 1 },
   .problem { titled "Problem" with ID := -9223372036854775808, ObjectId := 2 }]

/-- The collection the test's three creates leave. -/
def docsOfThree : List Doc :=
  [.problem { titled "Problem 1" with ID := 1, ObjectId := 101 },
   .problem { titled "Problem 2" with ID := 2, ObjectId := 102 },
   .problem { titled "Problem 3" with ID := 3, ObjectId := 103 }]

/-- The collection of the test `get 500`: the three problems and a document
with `id` 4 whose `title` is a string. -/
def docsWithMalformed : List Doc :=
  docsOfThree ++ [.malformed 104 4]

/-- A create request whose body decodes, served without a store failure: the
value of `primitive.NewObjectID()` and the decoded body. -/
def toCall (c : ObjectID × Problem) : Env × Option Problem :=
  (okEnv c.1, some c.2)

/-- The problems that consecutive creates store when the IDs `k + 1`, `k + 2`,
... are allocated to them in order. -/
def stampFrom (k : Int) : List (ObjectID × Problem) → List Problem
  | [] => []
  | (oid, p) :: rest => { p with ID := k + 1, ObjectId := oid } :: stampFrom (k + 1) rest

/-- The answer of a create that stored `q`. -/
def ok200 (q : Problem) : Response :=
  ⟨200, some q⟩



/-! ## Go `int` arithmetic -/

theorem maxInt_eq : maxInt = 2 ^ 63 - 1 := by
  norm_num [maxInt]

theorem minInt_eq : minInt = -(2 ^ 63) := by
  norm_num [minInt]

theorem wrapInt_of_inRange (x : Int) (hlo : minInt ≤ x) (hhi : x ≤ maxInt) :
    wrapInt x = x := by
  unfold wrapInt
  unfold minInt at hlo
  unfold maxInt at hhi
  omega

theorem wrapInt_inRange (x : Int) : minInt ≤ wrapInt x ∧ wrapInt x ≤ maxInt := by
  unfold wrapInt minInt maxInt
  omega

theorem wrapInt_succ_ne (x : Int) : wrapInt (x + 1) ≠ x := by
  unfold wrapInt
  omega

theorem wrapInt_le (x : Int) (hlo : minInt ≤ x) : wrapInt x ≤ x := by
  unfold wrapInt
  unfold minInt at hlo
  omega

theorem wrapInt_maxInt_succ : wrapInt (maxInt + 1) = minInt := by
  decide

/-! ## The sorted read -/

theorem findMaxID_eq_none {docs : List Doc} : findMaxID docs = none ↔ docs = [] := by
  cases docs with
  | nil => simp [findMaxID]
  | cons d ds =>
    simp only [findMaxID]
    cases findMaxID ds with
    | none => simp
    | some m => by_cases h : d.id < m.id <;> simp [h]

theorem findMaxID_spec {docs : List Doc} {m : Doc} (h : findMaxID docs = some m) :
    m ∈ docs ∧ ∀ d ∈ docs, d.id ≤ m.id := by
  induction docs generalizing m with
  | nil => simp [findMaxID] at h
  | cons d ds ih =>
    simp only [findMaxID] at h
    cases hds : findMaxID ds with
    | none =>
      rw [hds] at h
      have hnil := findMaxID_eq_none.mp hds
      simp only [Option.some.injEq] at h
      subst h
      subst hnil
      simp
    | some m' =>
      rw [hds] at h
      have ih' := ih hds
      by_cases hlt : d.id < m'.id
      · simp only [hlt, if_true, Option.some.injEq] at h
        subst h
        refine ⟨List.mem_cons_of_mem _ ih'.1, ?_⟩
        intro x hx
        rcases List.mem_cons.mp hx with rfl | hx
        · omega
        · exact ih'.2 x hx
      · simp only [hlt, if_false, Option.some.injEq] at h
        subst h
        refine ⟨List.mem_cons_self _ _, ?_⟩
        intro x hx
        rcases List.mem_cons.mp hx with rfl | hx
        · exact le_refl _
        · have := ih'.2 x hx
          omega

/-- The four ways the max-ID read can end. -/
theorem findOneSorted_cases (docs : List Doc) (fails : Bool) :
    (fails = true ∧ findOneSorted docs fails = .error .clientDisconnected) ∨
    (fails = false ∧ docs = [] ∧ findOneSorted docs fails = .error .noDocuments) ∨
    (fails = false ∧ ∃ last, findOneSorted docs fails = .ok last ∧
      Doc.problem last ∈ docs ∧ ∀ d ∈ docs, d.id ≤ last.ID) ∨
    (fails = false ∧ findOneSorted docs fails = .error .decodeFailure ∧
      ∃ oid id, Doc.malformed oid id ∈ docs) := by
  cases fails with
  | true => left; simp [findOneSorted]
  | false =>
    right
    cases hm : findMaxID docs with
    | none =>
      left
      exact ⟨rfl, findMaxID_eq_none.mp hm, by simp [findOneSorted, hm]⟩
    | some m =>
      right
      cases m with
      | problem last =>
        left
        have hs := findMaxID_spec hm
        exact ⟨rfl, last, by simp [findOneSorted, hm, decodeDoc], hs.1, hs.2⟩
      | malformed oid id =>
        right
        exact ⟨rfl, by simp [findOneSorted, hm, decodeDoc], oid, id, (findMaxID_spec hm).1⟩

/-- A largest stored ID is unique. -/
theorem isLargestID_unique {docs : List Doc} {m m' : Int}
    (h : IsLargestID docs m) (h' : IsLargestID docs m') : m = m' := by
  obtain ⟨⟨d, hd, hdm⟩, hle⟩ := h
  obtain ⟨⟨d', hd', hdm'⟩, hle'⟩ := h'
  have h1 := hle d' hd'
  have h2 := hle' d hd
  omega

/-! ## The insert -/

/-- The three outcomes of lines 63-68: the document is appended and returned
with 200, which takes a faultless call and an `_id` not yet stored; or the
answer is 507, with the collection as it was or with the document appended. -/
theorem insertAndRespond_cases (docs : List Doc) (fault : InsertFault) (q : Problem) :
    (fault = .none ∧ (∀ d ∈ docs, d.oid ≠ q.ObjectId) ∧
      insertAndRespond docs fault q = (docs ++ [.problem q], ⟨200, some q⟩)) ∨
    insertAndRespond docs fault q = (docs, ⟨507, none⟩) ∨
    (fault = .afterWrite ∧
      insertAndRespond docs fault q = (docs ++ [.problem q], ⟨507, none⟩)) := by
  by_cases hdup : docs.any (fun d => d.oid == q.ObjectId) = true
  · right; left
    cases fault <;> simp [insertAndRespond, insertOne, hdup]
  · have hfresh : ∀ d ∈ docs, d.oid ≠ q.ObjectId := by
      intro d hd heq
      apply hdup
      rw [List.any_eq_true]
      exact ⟨d, hd, by simp [heq]⟩
    cases fault with
    | none => left; exact ⟨rfl, hfresh, by simp [insertAndRespond, insertOne, hdup]⟩
    | beforeWrite => right; left; simp [insertAndRespond, insertOne]
    | afterWrite => right; right; exact ⟨rfl, by simp [insertAndRespond, insertOne, hdup]⟩

/-- An insert that is answered 200 appended the document. -/
theorem insertAndRespond_ok {docs docs' : List Doc} {fault : InsertFault} {q : Problem}
    {r : Response} (h : insertAndRespond docs fault q = (docs', r)) (hr : r.status = 200) :
    fault = .none ∧ (∀ d ∈ docs, d.oid ≠ q.ObjectId) ∧ docs' = docs ++ [.problem q] ∧
      r = ⟨200, some q⟩ := by
  rcases insertAndRespond_cases docs fault q with ⟨hf, hfresh, he⟩ | he | ⟨_, he⟩
  · rw [he] at h
    simp only [Prod.mk.injEq] at h
    exact ⟨hf, hfresh, h.1.symm, h.2.symm⟩
  · rw [he] at h
    simp only [Prod.mk.injEq] at h
    rw [← h.2] at hr
    simp at hr
  · rw [he] at h
    simp only [Prod.mk.injEq] at h
    rw [← h.2] at hr
    simp at hr

/-- What the create handler does once its read has returned the document `last`. -/
theorem handleCreate_of_last {docs : List Doc} {env : Env} {last : Problem}
    (h : findOneSorted docs env.findFails = .ok last) (p : Problem) :
    handleCreate docs env (some p) =
      insertAndRespond docs env.insertFault
        { p with ID := wrapInt (last.ID + 1), ObjectId := env.newObjectID } := by
  simp [handleCreate, h]

/-- What the create handler does once its read has found the collection empty. -/
theorem handleCreate_of_noDocuments {docs : List Doc} {env : Env}
    (h : findOneSorted docs env.findFails = .error .noDocuments) (p : Problem) :
    handleCreate docs env (some p) =
      insertAndRespond docs env.insertFault { p with ID := 1, ObjectId := env.newObjectID } := by
  simp [handleCreate, h]

/-- What the create handler does once its read has ended in another error. -/
theorem handleCreate_of_error {docs : List Doc} {env : Env} {e : StoreErr}
    (h : findOneSorted docs env.findFails = .error e) (hne : e ≠ .noDocuments) (p : Problem) :
    handleCreate docs env (some p) = (docs, ⟨500, none⟩) := by
  cases e with
  | noDocuments => exact absurd rfl hne
  | clientDisconnected => simp [handleCreate, h]
  | decodeFailure => simp [handleCreate, h]

/-- A create answered 200 has decoded its body, read the collection, prepared
the document `q` and appended it. -/
theorem handleCreate_ok {docs docs' : List Doc} {env : Env} {body : Option Problem}
    {r : Response} (h : handleCreate docs env body = (docs', r)) (hr : r.status = 200) :
    ∃ p q, body = some p ∧ env.findFails = false ∧ env.insertFault = .none ∧
      (∀ d ∈ docs, d.oid ≠ env.newObjectID) ∧
      docs' = docs ++ [.problem q] ∧ r = ⟨200, some q⟩ ∧
      ((docs = [] ∧ q = { p with ID := 1, ObjectId := env.newObjectID }) ∨
       ∃ last, Doc.problem last ∈ docs ∧ (∀ d ∈ docs, d.id ≤ last.ID) ∧
         q = { p with ID := wrapInt (last.ID + 1), ObjectId := env.newObjectID }) := by
  cases body with
  | none =>
    simp only [handleCreate, Prod.mk.injEq] at h
    rw [← h.2] at hr
    simp at hr
  | some p =>
    rcases findOneSorted_cases docs env.findFails with
      ⟨_, he⟩ | ⟨hf, hnil, he⟩ | ⟨hf, last, he, hmem, hmax⟩ | ⟨_, he, _⟩
    · rw [handleCreate_of_error he (by simp)] at h
      simp only [Prod.mk.injEq] at h
      rw [← h.2] at hr
      simp at hr
    · rw [handleCreate_of_noDocuments he] at h
      obtain ⟨hfault, hfresh, hdocs, hresp⟩ := insertAndRespond_ok h hr
      exact ⟨p, _, rfl, hf, hfault, hfresh, hdocs, hresp, Or.inl ⟨hnil, rfl⟩⟩
    · rw [handleCreate_of_last he] at h
      obtain ⟨hfault, hfresh, hdocs, hresp⟩ := insertAndRespond_ok h hr
      exact ⟨p, _, rfl, hf, hfault, hfresh, hdocs, hresp, Or.inr ⟨last, hmem, hmax, rfl⟩⟩
    · rw [handleCreate_of_error he (by simp)] at h
      simp only [Prod.mk.injEq] at h
      rw [← h.2] at hr
      simp at hr

/-- Below the overflow, the ID prepared by a create answered 200 is above every
stored one. -/
theorem handleCreate_ok_lt {docs docs' : List Doc} {env : Env} {body : Option Problem}
    {q : Problem} (h : handleCreate docs env body = (docs', ⟨200, some q⟩))
    (hb : BelowMaxInt docs) : ∀ d ∈ docs, d.id < q.ID := by
  obtain ⟨p, q', _, _, _, _, _, hq, hcase⟩ := handleCreate_ok h rfl
  simp only [Response.mk.injEq, Option.some.injEq, true_and] at hq
  subst hq
  rcases hcase with ⟨hnil, _⟩ | ⟨last, hmem, hmax, hq⟩
  · subst hnil
    intro d hd
    simp at hd
  · intro d hd
    have hl := hb _ hmem
    simp only [Doc.id] at hl
    have hw : wrapInt (last.ID + 1) = last.ID + 1 :=
      wrapInt_of_inRange _ (by omega) (by omega)
    have hd' := hmax d hd
    rw [hq]
    simp only [hw]
    omega

/-- The outcomes of a create request: 400, 500 or 507 with the collection as it
was, or a prepared document appended, with 200 or with 507. -/
theorem handleCreate_cases (docs : List Doc) (env : Env) (body : Option Problem) :
    handleCreate docs env body = (docs, ⟨400, none⟩) ∨
    handleCreate docs env body = (docs, ⟨500, none⟩) ∨
    handleCreate docs env body = (docs, ⟨507, none⟩) ∨
    (∃ q, handleCreate docs env body = (docs ++ [.problem q], ⟨200, some q⟩)) ∨
    (env.insertFault = .afterWrite ∧ ∃ q, IsNextID docs q.ID ∧
      handleCreate docs env body = (docs ++ [.problem q], ⟨507, none⟩)) := by
  cases body with
  | none => left; rfl
  | some p =>
    right
    rcases findOneSorted_cases docs env.findFails with
      ⟨_, he⟩ | ⟨_, hnil, he⟩ | ⟨_, last, he, hmem, hmax⟩ | ⟨_, he, _⟩
    · left; exact handleCreate_of_error he (by simp) p
    · right
      rw [handleCreate_of_noDocuments he]
      rcases insertAndRespond_cases docs env.insertFault
        { p with ID := 1, ObjectId := env.newObjectID } with ⟨_, _, h⟩ | h | ⟨hf, h⟩
      · right; left; exact ⟨_, h⟩
      · left; exact h
      · right; right; exact ⟨hf, _, Or.inl ⟨hnil, rfl⟩, h⟩
    · right
      rw [handleCreate_of_last he]
      rcases insertAndRespond_cases docs env.insertFault
        { p with ID := wrapInt (last.ID + 1), ObjectId := env.newObjectID } with
        ⟨_, _, h⟩ | h | ⟨hf, h⟩
      · right; left; exact ⟨_, h⟩
      · left; exact h
      · right; right; exact ⟨hf, _, Or.inr ⟨last, hmem, hmax, rfl⟩, h⟩
    · left; exact handleCreate_of_error he (by simp) p

/-- The read by ID on a collection in which no document carries the ID. -/
theorem findOneByID_of_absent {docs : List Doc} {id : Int} (h : ∀ d ∈ docs, d.id ≠ id) :
    findOneByID docs false id = .error .noDocuments := by
  have hfind : docs.find? (fun d => d.id == id) = none := by
    rw [List.find?_eq_none]
    intro d hd
    simpa using h d hd
  simp [findOneByID, hfind]

/-- An allocated ID is a Go `int`, at most one above a bound on the stored IDs. -/
theorem isNextID_le {docs : List Doc} {k id : Int} (hk : 0 ≤ k)
    (h : ∀ d ∈ docs, minInt ≤ d.id ∧ d.id ≤ k) (hid : IsNextID docs id) :
    minInt ≤ id ∧ id ≤ k + 1 := by
  rcases hid with ⟨_, rfl⟩ | ⟨last, hmem, _, rfl⟩
  · simp only [minInt]
    omega
  · have hl := h _ hmem
    simp only [Doc.id] at hl
    have h1 := wrapInt_inRange (last.ID + 1)
    have h2 := wrapInt_le (last.ID + 1) (by omega)
    omega

/-- Every ID the create handler stores is a Go `int`, and it is at most one
above the bound on what was stored. -/
theorem handleCreate_ids_le {docs : List Doc} {k : Int} (env : Env) (body : Option Problem)
    (hk : 0 ≤ k) (h : ∀ d ∈ docs, minInt ≤ d.id ∧ d.id ≤ k) :
    ∀ d ∈ (handleCreate docs env body).1, minInt ≤ d.id ∧ d.id ≤ k + 1 := by
  have hweak : ∀ d ∈ docs, minInt ≤ d.id ∧ d.id ≤ k + 1 := by
    intro d hd
    have := h d hd
    omega
  have happ : ∀ q : Problem, IsNextID docs q.ID →
      ∀ d ∈ docs ++ [Doc.problem q], minInt ≤ d.id ∧ d.id ≤ k + 1 := by
    intro q hq d hd
    rcases List.mem_append.mp hd with hd | hd
    · exact hweak d hd
    · simp only [List.mem_singleton] at hd
      subst hd
      exact isNextID_le hk h hq
  rcases handleCreate_cases docs env body with h1 | h1 | h1 | ⟨q, h1⟩ | ⟨_, q, hq, h1⟩
  · rw [h1]; exact hweak
  · rw [h1]; exact hweak
  · rw [h1]; exact hweak
  · obtain ⟨p, q', _, _, _, _, _, hq, hcase⟩ := handleCreate_ok h1 rfl
    simp only [Response.mk.injEq, Option.some.injEq, true_and] at hq
    subst hq
    rw [h1]
    apply happ
    rcases hcase with ⟨hnil, hq⟩ | ⟨last, hmem, hmax, hq⟩
    · exact Or.inl ⟨hnil, by rw [hq]⟩
    · exact Or.inr ⟨last, hmem, hmax, by rw [hq]⟩
  · rw [h1]; exact happ q hq

/-- After any sequence of create requests on a collection whose IDs are Go
`int`s up to `k`, the stored IDs are at most `k` plus the number of requests. -/
theorem runCreates_ids_le (calls : List (Env × Option Problem)) :
    ∀ (docs : List Doc) (k : Int), 0 ≤ k → (∀ d ∈ docs, minInt ≤ d.id ∧ d.id ≤ k) →
      ∀ d ∈ (runCreates docs calls).1, minInt ≤ d.id ∧ d.id ≤ k + calls.length := by
  induction calls with
  | nil =>
    intro docs k _ h d hd
    simpa [runCreates] using h d hd
  | cons c rest ih =>
    intro docs k hk h d hd
    obtain ⟨env, body⟩ := c
    simp only [runCreates] at hd
    have := ih _ (k + 1) (by omega) (handleCreate_ids_le env body hk h) d hd
    simp only [List.length_cons, Nat.cast_add, Nat.cast_one]
    omega

/-! ## Sequential runs -/

theorem runCreates_append (a b : List (Env × Option Problem)) :
    ∀ docs : List Doc, runCreates docs (a ++ b) =
      ((runCreates (runCreates docs a).1 b).1,
       (runCreates docs a).2 ++ (runCreates (runCreates docs a).1 b).2) := by
  induction a with
  | nil => intro docs; simp [runCreates]
  | cons c rest ih =>
    intro docs
    obtain ⟨env, body⟩ := c
    rw [List.cons_append]
    simp only [runCreates]
    rw [ih]
    rfl

/-- Create requests only append to the collection. -/
theorem runCreates_prefix (calls : List (Env × Option Problem)) :
    ∀ docs : List Doc, ∃ extra, (runCreates docs calls).1 = docs ++ extra := by
  induction calls with
  | nil => intro docs; exact ⟨[], by simp [runCreates]⟩
  | cons c rest ih =>
    intro docs
    obtain ⟨env, body⟩ := c
    simp only [runCreates]
    obtain ⟨extra, he⟩ := ih (handleCreate docs env body).1
    rw [he]
    rcases handleCreate_cases docs env body with h | h | h | ⟨q, h⟩ | ⟨_, q, _, h⟩
    · rw [h]; exact ⟨extra, rfl⟩
    · rw [h]; exact ⟨extra, rfl⟩
    · rw [h]; exact ⟨extra, rfl⟩
    · rw [h]; exact ⟨.problem q :: extra, by simp⟩
    · rw [h]; exact ⟨.problem q :: extra, by simp⟩

theorem length_runCreates (calls : List (Env × Option Problem)) :
    ∀ docs : List Doc, (runCreates docs calls).2.length = calls.length := by
  induction calls with
  | nil => intro docs; simp [runCreates]
  | cons c rest ih =>
    intro docs
    obtain ⟨env, body⟩ := c
    simp [runCreates, ih]

theorem length_stampFrom (cs : List (ObjectID × Problem)) :
    ∀ k : Int, (stampFrom k cs).length = cs.length := by
  induction cs with
  | nil => intro k; rfl
  | cons c rest ih =>
    intro k
    obtain ⟨oid, p⟩ := c
    simp [stampFrom, ih]

theorem map_ID_stampFrom (cs : List (ObjectID × Problem)) :
    ∀ k : Nat, (stampFrom k cs).map (fun q => q.ID) =
      (List.range' (k + 1) cs.length).map Int.ofNat := by
  induction cs with
  | nil => intro k; rfl
  | cons c rest ih =>
    intro k
    obtain ⟨oid, p⟩ := c
    have := ih (k + 1)
    simp only [Nat.cast_add, Nat.cast_one] at this
    simp [stampFrom, List.range', this]

theorem mem_idsUpTo {k : Nat} {x : Int} : x ∈ idsUpTo k ↔ 1 ≤ x ∧ x ≤ k := by
  simp only [idsUpTo, List.mem_map, List.mem_range'_1]
  constructor
  · rintro ⟨n, ⟨h1, h2⟩, rfl⟩
    simp only [Int.ofNat_eq_coe]
    omega
  · rintro ⟨h1, h2⟩
    refine ⟨x.toNat, ⟨by omega, by omega⟩, ?_⟩
    simp only [Int.ofNat_eq_coe]
    omega

theorem stampFrom_getElem? (cs : List (ObjectID × Problem)) :
    ∀ (k : Int) (j : Nat), (stampFrom k cs)[j]? =
      (cs[j]?).map (fun c => ({ c.2 with ID := k + 1 + j, ObjectId := c.1 } : Problem)) := by
  induction cs with
  | nil => intro k j; simp [stampFrom]
  | cons c rest ih =>
    intro k j
    obtain ⟨oid, p⟩ := c
    cases j with
    | zero => simp [stampFrom]
    | succ j =>
      simp only [stampFrom, List.getElem?_cons_succ, ih, Nat.cast_add, Nat.cast_one]
      have : k + 1 + 1 + (j : Int) = k + 1 + ((j : Int) + 1) := by ring
      rw [this]

/-- The read by ID finds, among problems stored under consecutive IDs, the one
at the position of the ID. -/
theorem find?_stampFrom (cs : List (ObjectID × Problem)) :
    ∀ (k : Int) (j : Nat) (c : ObjectID × Problem), cs[j]? = some c →
      ((stampFrom k cs).map Doc.problem).find? (fun d => d.id == k + 1 + j) =
        some (.problem { c.2 with ID := k + 1 + j, ObjectId := c.1 }) := by
  induction cs with
  | nil => intro k j c h; simp at h
  | cons c' rest ih =>
    intro k j c h
    obtain ⟨oid, p⟩ := c'
    cases j with
    | zero =>
      simp only [List.getElem?_cons_zero, Option.some.injEq] at h
      subst h
      simp [stampFrom, Doc.id]
    | succ j =>
      simp only [List.getElem?_cons_succ] at h
      have hrec := ih (k + 1) j c h
      have harith : k + 1 + 1 + (j : Int) = k + 1 + ((j + 1 : Nat) : Int) := by
        push_cast; ring
      rw [harith] at hrec
      simp only [stampFrom, List.map_cons]
      rw [List.find?_cons_of_neg]
      · exact hrec
      · simp only [Doc.id, beq_iff_eq]
        push_cast
        omega

/-- One create answered 200 on a collection holding problems with the IDs
`1, ..., k`: its body decoded, no store call failed, and it stored the body
under Go's `k + 1`. -/
theorem handleCreate_seq {ps : List Problem} {k : Nat}
    (hids : ps.map (fun q => q.ID) = idsUpTo k) {env : Env} {body : Option Problem}
    {docs' : List Doc} {r : Response}
    (h : handleCreate (ps.map Doc.problem) env body = (docs', r)) (hr : r.status = 200) :
    ∃ p, (env, body) = toCall (env.newObjectID, p) ∧
      docs' = ps.map Doc.problem ++
        [.problem { p with ID := wrapInt (k + 1), ObjectId := env.newObjectID }] ∧
      r = ok200 { p with ID := wrapInt (k + 1), ObjectId := env.newObjectID } := by
  have hmem : ∀ q ∈ ps, 1 ≤ q.ID ∧ q.ID ≤ k := by
    intro q hq
    have : q.ID ∈ ps.map (fun q => q.ID) := List.mem_map_of_mem _ hq
    rw [hids] at this
    exact mem_idsUpTo.mp this
  obtain ⟨p, q, hb, hf, hi, _, hdocs, hresp, hcase⟩ := handleCreate_ok h hr
  have henv : (env, body) = toCall (env.newObjectID, p) := by
    obtain ⟨f, i, o⟩ := env
    simp only at hf hi
    subst hf hi hb
    rfl
  have hq : q = { p with ID := wrapInt (k + 1), ObjectId := env.newObjectID } := by
    rcases hcase with ⟨hnil, hq⟩ | ⟨last, hlast, hmax, hq⟩
    · have hps : ps = [] := by simpa using hnil
      subst hps
      have hk : k = 0 := by
        cases k with
        | zero => rfl
        | succ n => simp [idsUpTo, List.range'] at hids
      subst hk
      rw [hq]
      simp [wrapInt]
    · have hl : last ∈ ps := by simpa using hlast
      have hr := hmem last hl
      have hkk : (k : Int) ∈ idsUpTo k := mem_idsUpTo.mpr ⟨by omega, le_refl _⟩
      rw [← hids] at hkk
      obtain ⟨x, hx, hxk⟩ := List.mem_map.mp hkk
      have hle := hmax (.problem x) (List.mem_map_of_mem _ hx)
      simp only [Doc.id] at hle
      have hlk : last.ID = k := by omega
      rw [hq, hlk]
  subst hq
  exact ⟨p, henv, hdocs, by rw [hresp]; rfl⟩

/-- Creates all answered 200 on a collection holding problems with the IDs
`1, ..., k`, as long as the IDs stay Go `int`s: every body decoded, no store
call failed, and the bodies are stored in order under `k + 1`, `k + 2`, ... -/
theorem runCreates_seq (calls : List (Env × Option Problem)) :
    ∀ (ps : List Problem) (k : Nat), ps.map (fun q => q.ID) = idsUpTo k →
      (k : Int) + calls.length ≤ maxInt →
      (∀ r ∈ (runCreates (ps.map Doc.problem) calls).2, r.status = 200) →
      ∃ cs : List (ObjectID × Problem), calls = cs.map toCall ∧
        runCreates (ps.map Doc.problem) calls =
          ((ps ++ stampFrom k cs).map Doc.problem, (stampFrom k cs).map ok200) := by
  induction calls with
  | nil =>
    intro ps k _ _ _
    exact ⟨[], rfl, by simp [runCreates, stampFrom]⟩
  | cons c rest ih =>
    intro ps k hids hle hok
    obtain ⟨env, body⟩ := c
    simp only [List.length_cons, Nat.cast_add, Nat.cast_one] at hle
    simp only [runCreates, List.mem_cons, forall_eq_or_imp] at hok
    have hw : wrapInt ((k : Int) + 1) = k + 1 :=
      wrapInt_of_inRange _ (by unfold minInt; omega) (by omega)
    obtain ⟨p, hcall, hdocs, hresp⟩ := handleCreate_seq hids
      (show handleCreate (ps.map Doc.problem) env body =
        ((handleCreate (ps.map Doc.problem) env body).1,
         (handleCreate (ps.map Doc.problem) env body).2) from rfl) hok.1
    rw [hw] at hdocs hresp
    have hids' : (ps ++ [({ p with ID := (k : Int) + 1, ObjectId := env.newObjectID } :
        Problem)]).map (fun q : Problem => q.ID) = idsUpTo (k + 1) := by
      simp only [List.map_append, hids, List.map_cons, List.map_nil, idsUpTo]
      rw [List.range'_1_concat]
      simp
      omega
    have hdocs' : (handleCreate (ps.map Doc.problem) env body).1 =
        (ps ++ [({ p with ID := (k : Int) + 1, ObjectId := env.newObjectID } :
          Problem)]).map Doc.problem := by
      rw [hdocs]; simp
    rw [hdocs'] at hok
    obtain ⟨cs, hcs, hrun⟩ := ih _ (k + 1) hids' (by push_cast; omega) hok.2
    refine ⟨(env.newObjectID, p) :: cs, ?_, ?_⟩
    · rw [List.map_cons, ← hcall, hcs]
    · simp only [runCreates]
      rw [hdocs', hrun, hresp]
      simp [stampFrom]

/-! ## Allocation of the next ID (C1) -/

theorem readSucceeds_spec {docs : List Doc} {env : Env} (h : readSucceeds docs env = true) :
    ∀ e, findOneSorted docs env.findFails = .error e → e = .noDocuments := by
  intro e he
  cases e with
  | noDocuments => rfl
  | clientDisconnected => simp [readSucceeds, he] at h
  | decodeFailure => simp [readSucceeds, he] at h

theorem readSucceeds_eq_false {docs : List Doc} {env : Env}
    (h : readSucceeds docs env = false) :
    ∃ e, findOneSorted docs env.findFails = .error e ∧ e ≠ .noDocuments := by
  unfold readSucceeds at h
  cases hr : findOneSorted docs env.findFails with
  | ok last => simp [hr] at h
  | error e =>
    cases e with
    | noDocuments => simp [hr] at h
    | clientDisconnected => exact ⟨_, rfl, by simp⟩
    | decodeFailure => exact ⟨_, rfl, by simp⟩

/-- The test's three creates leave the collection `docsOfThree`. -/
theorem runCreates_threeCreates :
    runCreates [] threeCreates =
      (docsOfThree, [ok200 { titled "Problem 1" with ID := 1, ObjectId := 101 },
                     ok200 { titled "Problem 2" with ID := 2, ObjectId := 102 },
                     ok200 { titled "Problem 3" with ID := 3, ObjectId := 103 }]) := by
  decide

/-- C1, as stated, fails at the largest Go `int`: on a collection whose only
problem has ID `2^63 - 1` the max-ID read succeeds and the create handler
stores the new problem under `-2^63`, not under the largest stored ID plus one. -/
theorem create_next_id_overflows :
    readSucceeds docsAtMaxInt (okEnv 7) = true ∧
    IsLargestID docsAtMaxInt 9223372036854775807 ∧
    ∃ q : Problem,
      handleCreate docsAtMaxInt (okEnv 7) (some (titled "Next")) =
        (docsAtMaxInt ++ [.problem q], ⟨200, some q⟩) ∧
      q.ID = -9223372036854775808 ∧ q.ID ≠ 9223372036854775807 + 1 := by
  refine ⟨rfl, by decide, ?_⟩
  · exact ⟨{ titled "Next" with ID := -9223372036854775808, ObjectId := 7 }, by decide,
      rfl, by decide⟩

/-- C1 (amended): for every state of the collection in which the max-ID read
succeeds and every stored ID is a Go `int` below `2^63 - 1`, the create handler
assigns the new problem the ID 1 when the collection is empty and otherwise the
largest stored ID plus one: the problem with that ID is what it hands to
`InsertOne`, and what it inserts and returns when it answers 200. -/
theorem create_assigns_next_id (docs : List Doc) (env : Env) (p : Problem)
    (hread : readSucceeds docs env = true) (hb : BelowMaxInt docs) :
    ∃ q : Problem,
      handleCreate docs env (some p) = insertAndRespond docs env.insertFault q ∧
      ((handleCreate docs env (some p)).2.status = 200 →
        handleCreate docs env (some p) = (docs ++ [.problem q], ⟨200, some q⟩)) ∧
      (docs = [] → q.ID = 1) ∧ (∀ m, IsLargestID docs m → q.ID = m + 1) := by
  have hok : ∀ q : Problem,
      handleCreate docs env (some p) = insertAndRespond docs env.insertFault q →
      (handleCreate docs env (some p)).2.status = 200 →
        handleCreate docs env (some p) = (docs ++ [.problem q], ⟨200, some q⟩) := by
    intro q hq hs
    rw [hq] at hs ⊢
    obtain ⟨_, _, h1, h2⟩ := insertAndRespond_ok
      (show insertAndRespond docs env.insertFault q =
        ((insertAndRespond docs env.insertFault q).1,
         (insertAndRespond docs env.insertFault q).2) from rfl) hs
    exact Prod.ext h1 h2
  rcases findOneSorted_cases docs env.findFails with
    ⟨_, he⟩ | ⟨_, hnil, he⟩ | ⟨_, last, he, hmem, hmax⟩ | ⟨_, he, _⟩
  · cases readSucceeds_spec hread _ he
  · refine ⟨{ p with ID := 1, ObjectId := env.newObjectID },
      handleCreate_of_noDocuments he p, hok _ (handleCreate_of_noDocuments he p),
      fun _ => rfl, ?_⟩
    intro m hm
    obtain ⟨⟨d, hd, _⟩, _⟩ := hm
    rw [hnil] at hd
    cases hd
  · have hl := hb _ hmem
    simp only [Doc.id] at hl
    have hw : wrapInt (last.ID + 1) = last.ID + 1 :=
      wrapInt_of_inRange _ (by omega) (by omega)
    refine ⟨{ p with ID := wrapInt (last.ID + 1), ObjectId := env.newObjectID },
      handleCreate_of_last he p, hok _ (handleCreate_of_last he p), ?_, ?_⟩
    · intro hnil
      rw [hnil] at hmem
      cases hmem
    · intro m hm
      have hlast : IsLargestID docs last.ID := ⟨⟨_, hmem, rfl⟩, hmax⟩
      rw [isLargestID_unique hm hlast]
      exact hw
  · cases readSucceeds_spec hread _ he

/-- C1 at the state the test reaches: after problems 1, 2 and 3 the next
create stores its problem under 4. -/
theorem create_assigns_next_id_witness :
    readSucceeds docsOfThree (okEnv 104) = true ∧ BelowMaxInt docsOfThree ∧
    ∃ q : Problem,
      handleCreate docsOfThree (okEnv 104) (some (titled "Problem 4")) =
        insertAndRespond docsOfThree (okEnv 104).insertFault q ∧
      ((handleCreate docsOfThree (okEnv 104) (some (titled "Problem 4"))).2.status = 200 →
        handleCreate docsOfThree (okEnv 104) (some (titled "Problem 4")) =
          (docsOfThree ++ [.problem q], ⟨200, some q⟩)) ∧
      (docsOfThree = [] → q.ID = 1) ∧ (∀ m, IsLargestID docsOfThree m → q.ID = m + 1) :=
  ⟨rfl, by decide,
   create_assigns_next_id docsOfThree (okEnv 104) (titled "Problem 4") rfl (by decide)⟩

/-! ## Status of a failing store call (C5, C7) -/

/-- C5, as stated, fails for the read step: with the connection gone at the
max-ID read the create handler answers 500, not 507. -/
theorem create_read_failure_is_not_507 :
    findOneSorted [] (Env.mk true .none 7).findFails = .error .clientDisconnected ∧
    (handleCreate [] (Env.mk true .none 7) (some (titled "Problem 1"))).2.status = 500 ∧
    (handleCreate [] (Env.mk true .none 7) (some (titled "Problem 1"))).2.status ≠ 507 :=
  ⟨rfl, rfl, by decide⟩

/-- C5 (amended): for every create request whose body decodes, a store failure
at the insert of the new record (the call fails before or after the write, or
the server refuses the document) is reported as 507 Insufficient Storage, while
a failure of the read of the current maximum ID (any error but no-documents) is
reported as 500 Internal Server Error. -/
theorem create_store_failure_status (docs : List Doc) (env : Env) (p : Problem) :
    (readSucceeds docs env = true →
      (env.insertFault ≠ .none ∨ ∃ d ∈ docs, d.oid = env.newObjectID) →
      (handleCreate docs env (some p)).2 = ⟨507, none⟩) ∧
    (readSucceeds docs env = false →
      (handleCreate docs env (some p)).2 = ⟨500, none⟩) := by
  constructor
  · intro hread hins
    have hfail : ∀ q : Problem, q.ObjectId = env.newObjectID →
        (insertAndRespond docs env.insertFault q).2 = ⟨507, none⟩ := by
      intro q hq
      rcases insertAndRespond_cases docs env.insertFault q with ⟨hf, hfresh, _⟩ | h | ⟨_, h⟩
      · rcases hins with hne | ⟨d, hd, hdo⟩
        · exact absurd hf hne
        · exact absurd (hdo.trans hq.symm) (hfresh d hd)
      · rw [h]
      · rw [h]
    rcases findOneSorted_cases docs env.findFails with
      ⟨_, he⟩ | ⟨_, _, he⟩ | ⟨_, last, he, _, _⟩ | ⟨_, he, _⟩
    · cases readSucceeds_spec hread _ he
    · rw [handleCreate_of_noDocuments he]; exact hfail _ rfl
    · rw [handleCreate_of_last he]; exact hfail _ rfl
    · cases readSucceeds_spec hread _ he
  · intro hread
    obtain ⟨e, he, hne⟩ := readSucceeds_eq_false hread
    rw [handleCreate_of_error he hne p]

/-- C5 (amended) on the empty collection: a failing insert gives 507, a failing
read gives 500. -/
theorem create_store_failure_status_witness :
    (readSucceeds [] (Env.mk false .beforeWrite 7) = true ∧
      (Env.mk false .beforeWrite 7).insertFault ≠ .none ∧
      (handleCreate [] (Env.mk false .beforeWrite 7) (some (titled "Problem 1"))).2 =
        ⟨507, none⟩) ∧
    (readSucceeds [] (Env.mk true .none 7) = false ∧
      (handleCreate [] (Env.mk true .none 7) (some (titled "Problem 1"))).2 = ⟨500, none⟩) :=
  ⟨⟨rfl, by decide,
    (create_store_failure_status [] (Env.mk false .beforeWrite 7) (titled "Problem 1")).1 rfl
      (Or.inl (by decide))⟩,
   ⟨rfl, (create_store_failure_status [] (Env.mk true .none 7) (titled "Problem 1")).2 rfl⟩⟩

/-- The read by ID ends in an error other than no-documents exactly in the two
named ways: the driver call failed, or the matched document does not decode. -/
theorem findOneByID_error_iff (docs : List Doc) (fails : Bool) (id : Int) :
    (∃ e, findOneByID docs fails id = .error e ∧ e ≠ .noDocuments) ↔
      fails = true ∨ ∃ o k, docs.find? (fun d => d.id == id) = some (.malformed o k) := by
  cases fails with
  | true => simp [findOneByID]
  | false =>
    cases hf : docs.find? (fun d => d.id == id) with
    | none => simp [findOneByID, hf]
    | some d =>
      cases d with
      | problem q => simp [findOneByID, hf, decodeDoc]
      | malformed o k => simp [findOneByID, hf, decodeDoc]

/-- The max-ID read ends in an error other than no-documents exactly in the two
named ways: the driver call failed, or the selected document does not decode. -/
theorem findOneSorted_error_iff (docs : List Doc) (fails : Bool) :
    (∃ e, findOneSorted docs fails = .error e ∧ e ≠ .noDocuments) ↔
      fails = true ∨ ∃ o k, findMaxID docs = some (.malformed o k) := by
  cases fails with
  | true => simp [findOneSorted]
  | false =>
    cases hf : findMaxID docs with
    | none => simp [findOneSorted, hf]
    | some d =>
      cases d with
      | problem q => simp [findOneSorted, hf, decodeDoc]
      | malformed o k => simp [findOneSorted, hf, decodeDoc]

/-- C7: in both handlers, whenever the store read ends in an error other than
no-documents, the handler answers 500 Internal Server Error and the collection
is what it was (create inserts nothing); this is what happens when the driver
call fails (the connection is gone) and when the document the read selects does
not decode into a `Problem`.  The get handler reads with the ID its body
decodes to. -/
theorem read_error_answers_500 (docs : List Doc) (env : Env) (p : Problem)
    (fails : Bool) (body : GetBody) (id : Int) :
    (∀ e, findOneSorted docs env.findFails = .error e → e ≠ .noDocuments →
      handleCreate docs env (some p) = (docs, ⟨500, none⟩)) ∧
    (decodeGetBody body = some id →
      ∀ e, findOneByID docs fails id = .error e → e ≠ .noDocuments →
        handleGet docs fails body = (docs, ⟨500, none⟩)) ∧
    (env.findFails = true ∨ (∃ o k, findMaxID docs = some (.malformed o k)) →
      handleCreate docs env (some p) = (docs, ⟨500, none⟩)) ∧
    (decodeGetBody body = some id →
      fails = true ∨ (∃ o k, docs.find? (fun d => d.id == id) = some (.malformed o k)) →
        handleGet docs fails body = (docs, ⟨500, none⟩)) := by
  have hc : ∀ e, findOneSorted docs env.findFails = .error e → e ≠ .noDocuments →
      handleCreate docs env (some p) = (docs, ⟨500, none⟩) :=
    fun e he hne => handleCreate_of_error he hne p
  have hg : decodeGetBody body = some id →
      ∀ e, findOneByID docs fails id = .error e → e ≠ .noDocuments →
        handleGet docs fails body = (docs, ⟨500, none⟩) := by
    intro hb e he hne
    cases e with
    | noDocuments => exact absurd rfl hne
    | clientDisconnected => simp [handleGet, hb, he]
    | decodeFailure => simp [handleGet, hb, he]
  refine ⟨hc, hg, ?_, ?_⟩
  · intro h
    obtain ⟨e, he, hne⟩ := (findOneSorted_error_iff docs env.findFails).mpr h
    exact hc e he hne
  · intro hb h
    obtain ⟨e, he, hne⟩ := (findOneByID_error_iff docs fails id).mpr h
    exact hg hb e he hne

/-- C7 on the test's inputs: a create with the connection gone (`create 500`)
and a get matching the document whose title is a string (`get 500`). -/
theorem read_error_answers_500_witness :
    (Env.mk true .none 7).findFails = true ∧
    handleCreate docsOfThree (Env.mk true .none 7) (some (titled "Problem 4")) =
      (docsOfThree, ⟨500, none⟩) ∧
    decodeGetBody (.id 4) = some 4 ∧
    findOneByID docsWithMalformed false 4 = .error .decodeFailure ∧
    handleGet docsWithMalformed false (.id 4) = (docsWithMalformed, ⟨500, none⟩) :=
  ⟨rfl,
   (read_error_answers_500 docsOfThree (Env.mk true .none 7) (titled "Problem 4") false
      (.id 4) 4).2.2.1 (Or.inl rfl),
   rfl, rfl,
   (read_error_answers_500 docsWithMalformed (okEnv 7) (titled "Problem 4") false
      (.id 4) 4).2.1 rfl .decodeFailure rfl (by decide)⟩

/-! ## The stored document (C8) -/

/-- C8: for every collection state in which the max-ID read succeeds there is
one allocated ID, the same for every decoded request body `p`, such that the
document create hands to `InsertOne` is `p` with its `ID` replaced by that ID
and its `ObjectId` by the new storage identity, every other field kept; when
create answers 200 this document is what it inserted and what it returns. -/
theorem create_stores_request_fields (docs : List Doc) (env : Env)
    (hread : readSucceeds docs env = true) :
    ∃ newID : Int, ∀ p : Problem,
      handleCreate docs env (some p) =
        insertAndRespond docs env.insertFault
          { p with ID := newID, ObjectId := env.newObjectID } ∧
      ((handleCreate docs env (some p)).2.status = 200 →
        handleCreate docs env (some p) =
          (docs ++ [.problem { p with ID := newID, ObjectId := env.newObjectID }],
           ⟨200, some { p with ID := newID, ObjectId := env.newObjectID }⟩)) := by
  have hok : ∀ (p q : Problem),
      handleCreate docs env (some p) = insertAndRespond docs env.insertFault q →
      (handleCreate docs env (some p)).2.status = 200 →
        handleCreate docs env (some p) = (docs ++ [.problem q], ⟨200, some q⟩) := by
    intro p q hq hs
    rw [hq] at hs ⊢
    obtain ⟨_, _, h1, h2⟩ := insertAndRespond_ok
      (show insertAndRespond docs env.insertFault q =
        ((insertAndRespond docs env.insertFault q).1,
         (insertAndRespond docs env.insertFault q).2) from rfl) hs
    exact Prod.ext h1 h2
  rcases findOneSorted_cases docs env.findFails with
    ⟨_, he⟩ | ⟨_, _, he⟩ | ⟨_, last, he, _, _⟩ | ⟨_, he, _⟩
  · cases readSucceeds_spec hread _ he
  · exact ⟨1, fun p => ⟨handleCreate_of_noDocuments he p,
      hok p _ (handleCreate_of_noDocuments he p)⟩⟩
  · exact ⟨wrapInt (last.ID + 1), fun p => ⟨handleCreate_of_last he p,
      hok p _ (handleCreate_of_last he p)⟩⟩
  · cases readSucceeds_spec hread _ he

/-- C8 after the test's three problems. -/
theorem create_stores_request_fields_witness :
    readSucceeds docsOfThree (okEnv 104) = true ∧
    ∃ newID : Int, ∀ p : Problem,
      handleCreate docsOfThree (okEnv 104) (some p) =
        insertAndRespond docsOfThree (okEnv 104).insertFault
          { p with ID := newID, ObjectId := (okEnv 104).newObjectID } ∧
      ((handleCreate docsOfThree (okEnv 104) (some p)).2.status = 200 →
        handleCreate docsOfThree (okEnv 104) (some p) =
          (docsOfThree ++
            [.problem { p with ID := newID, ObjectId := (okEnv 104).newObjectID }],
           ⟨200, some { p with ID := newID, ObjectId := (okEnv 104).newObjectID }⟩)) :=
  ⟨rfl, create_stores_request_fields docsOfThree (okEnv 104) rfl⟩

/-! ## Uniqueness of IDs, one create at a time (C9) -/

/-- C9, as stated, fails at the largest Go `int`: the stored IDs `2^63 - 1` and
`-2^63` are distinct, the create succeeds, and the new ID `-2^63` is neither
above every stored ID nor different from all of them. -/
theorem create_breaks_distinct_ids_at_maxInt :
    (docsAtBothEnds.map Doc.id).Nodup ∧
    ∃ q : Problem,
      handleCreate docsAtBothEnds (okEnv 7) (some (titled "Next")) =
        (docsAtBothEnds ++ [.problem q], ⟨200, some q⟩) ∧
      q.ID = -9223372036854775808 ∧
      ¬ (∀ d ∈ docsAtBothEnds, d.id < q.ID) ∧
      ¬ ((docsAtBothEnds ++ [Doc.problem q]).map Doc.id).Nodup :=
  ⟨by decide, { titled "Next" with ID := -9223372036854775808, ObjectId := 7 },
    by decide, rfl, by decide, by decide⟩

/-- C9 (amended): for every collection state whose stored IDs are pairwise
distinct Go `int`s below `2^63 - 1`, after one successful create the new
problem's ID is strictly greater than every ID that was already stored, and the
stored IDs are still pairwise distinct. -/
theorem create_keeps_ids_distinct (docs docs' : List Doc) (env : Env)
    (body : Option Problem) (r : Response)
    (hd : (docs.map Doc.id).Nodup) (hb : BelowMaxInt docs)
    (h : handleCreate docs env body = (docs', r)) (hr : r.status = 200) :
    ∃ q : Problem, r.body = some q ∧ docs' = docs ++ [.problem q] ∧
      (∀ d ∈ docs, d.id < q.ID) ∧ (docs'.map Doc.id).Nodup := by
  obtain ⟨p, q, _, _, _, _, hdocs, hq, _⟩ := handleCreate_ok h hr
  subst hq
  have hlt := handleCreate_ok_lt h hb
  refine ⟨q, rfl, hdocs, hlt, ?_⟩
  rw [hdocs, List.map_append, List.nodup_append]
  refine ⟨hd, by simp, ?_⟩
  intro x hx hx'
  simp only [List.map_cons, List.map_nil, List.mem_singleton, Doc.id] at hx'
  obtain ⟨d, hdmem, hdx⟩ := List.mem_map.mp hx
  have := hlt d hdmem
  omega

/-- C9 after the test's three problems: the fourth gets ID 4. -/
theorem create_keeps_ids_distinct_witness :
    (docsOfThree.map Doc.id).Nodup ∧ BelowMaxInt docsOfThree ∧
    ∃ q : Problem,
      (handleCreate docsOfThree (okEnv 104) (some (titled "Problem 4"))).2.body = some q ∧
      (handleCreate docsOfThree (okEnv 104) (some (titled "Problem 4"))).1 =
        docsOfThree ++ [.problem q] ∧
      (∀ d ∈ docsOfThree, d.id < q.ID) ∧
      ((handleCreate docsOfThree (okEnv 104) (some (titled "Problem 4"))).1.map Doc.id).Nodup :=
  ⟨by decide, by decide,
   create_keeps_ids_distinct docsOfThree _ (okEnv 104) (some (titled "Problem 4")) _
     (by decide) (by decide) rfl (by decide)⟩

/-! ## Effect of a create on the collection (C10) -/

/-- C10, as stated, fails on the 507 path: when the server applies the insert
and the handler gets an error instead of the reply, create answers 507 and the
collection has gained the new problem. -/
theorem create_507_may_have_stored :
    handleCreate [] (Env.mk false .afterWrite 7) (some (titled "Problem 1")) =
      ([.problem { titled "Problem 1" with ID := 1, ObjectId := 7 }], ⟨507, none⟩) ∧
    (handleCreate [] (Env.mk false .afterWrite 7) (some (titled "Problem 1"))).2.status ≠ 200 ∧
    (handleCreate [] (Env.mk false .afterWrite 7) (some (titled "Problem 1"))).1 ≠ [] :=
  ⟨by decide, by decide, by decide⟩

/-- C10 (amended): for every request and every collection state, if create
answers 200 the collection afterwards is the previous collection followed by
exactly one new document, the problem it returns; otherwise the answer is 400,
500 or 507; after 400 or 500 the collection is exactly what it was, and after
507 it is what it was or what it was followed by the one prepared problem. -/
theorem create_effect_on_collection (docs : List Doc) (env : Env) (body : Option Problem) :
    ((handleCreate docs env body).2.status = 200 →
      ∃ q : Problem, (handleCreate docs env body).1 = docs ++ [.problem q] ∧
        (handleCreate docs env body).2.body = some q) ∧
    ((handleCreate docs env body).2.status ≠ 200 →
      (handleCreate docs env body).2.status = 400 ∨
      (handleCreate docs env body).2.status = 500 ∨
      (handleCreate docs env body).2.status = 507) ∧
    ((handleCreate docs env body).2.status = 400 ∨
     (handleCreate docs env body).2.status = 500 →
      (handleCreate docs env body).1 = docs) ∧
    ((handleCreate docs env body).2.status = 507 →
      (handleCreate docs env body).1 = docs ∨
      ∃ q : Problem, IsNextID docs q.ID ∧
        (handleCreate docs env body).1 = docs ++ [.problem q]) := by
  rcases handleCreate_cases docs env body with h | h | h | ⟨q, h⟩ | ⟨_, q, hq, h⟩
  · rw [h]; simp
  · rw [h]; simp
  · rw [h]; simp
  · rw [h]; simp
  · rw [h]
    refine ⟨by simp, by simp, by simp, fun _ => Or.inr ⟨q, hq, rfl⟩⟩

/-- C10 (amended) on one successful create, on one whose body does not decode,
and on one whose insert fails before the write. -/
theorem create_effect_on_collection_witness :
    (∃ q : Problem,
      (handleCreate docsOfThree (okEnv 104) (some (titled "Problem 4"))).1 =
        docsOfThree ++ [.problem q] ∧
      (handleCreate docsOfThree (okEnv 104) (some (titled "Problem 4"))).2.body = some q) ∧
    (handleCreate docsOfThree (okEnv 104) none).1 = docsOfThree ∧
    ((handleCreate docsOfThree (Env.mk false .beforeWrite 104)
        (some (titled "Problem 4"))).1 = docsOfThree ∨
      ∃ q : Problem, IsNextID docsOfThree q.ID ∧
        (handleCreate docsOfThree (Env.mk false .beforeWrite 104)
          (some (titled "Problem 4"))).1 = docsOfThree ++ [.problem q]) :=
  ⟨(create_effect_on_collection docsOfThree (okEnv 104) (some (titled "Problem 4"))).1
      (by decide),
   (create_effect_on_collection docsOfThree (okEnv 104) none).2.2.1 (Or.inl (by decide)),
   (create_effect_on_collection docsOfThree (Env.mk false .beforeWrite 104)
      (some (titled "Problem 4"))).2.2.2 (by decide)⟩

/-! ## Get of an ID nobody carries (C4) -/

theorem decodeGetBody_inRange {body : GetBody} {id : Int}
    (h : decodeGetBody body = some id) : minInt ≤ id ∧ id ≤ maxInt := by
  cases body with
  | malformed => simp [decodeGetBody] at h
  | noID =>
    simp only [decodeGetBody, Option.some.injEq] at h
    subst h
    simp [minInt, maxInt]
  | id n =>
    simp only [decodeGetBody] at h
    by_cases hr : minInt ≤ n ∧ n ≤ maxInt
    · simp only [hr, and_self, if_true, Option.some.injEq] at h
      subst h
      exact hr
    · simp [hr] at h

theorem decodeGetBody_id {n : Int} (hlo : minInt ≤ n) (hhi : n ≤ maxInt) :
    decodeGetBody (.id n) = some n := by
  simp [decodeGetBody, hlo, hhi]

/-- C4, as stated, fails in two ways on the collection of the three problems,
none of which carries the requested id: a request for `2^63`, which is no Go
`int`, is answered 400, and a request for 4 whose read fails is answered 500. -/
theorem get_absent_id_not_always_404 :
    (∀ d ∈ docsOfThree, d.id ≠ 9223372036854775808) ∧
    handleGet docsOfThree false (.id 9223372036854775808) = (docsOfThree, ⟨400, none⟩) ∧
    (∀ d ∈ docsOfThree, d.id ≠ 4) ∧
    handleGet docsOfThree true (.id 4) = (docsOfThree, ⟨500, none⟩) :=
  ⟨by decide, by decide, by decide, by decide⟩

/-- C4 (amended): for every collection state and every request whose body
decodes to an id (a Go `int`) that no stored document carries, the get handler,
when its store read completes, answers 404 with no problem and leaves the
collection unchanged; this is the case of the id `n + 1` after `n` sequential
create requests on the empty collection, as long as `n + 1` is a Go `int`. -/
theorem get_absent_id_not_found (docs : List Doc) (body : GetBody) (id : Int)
    (calls : List (Env × Option Problem)) :
    (decodeGetBody body = some id → (∀ d ∈ docs, d.id ≠ id) →
      handleGet docs false body = (docs, ⟨404, none⟩)) ∧
    ((calls.length : Int) + 1 ≤ maxInt →
      handleGet (runCreates [] calls).1 false (.id (calls.length + 1)) =
        ((runCreates [] calls).1, ⟨404, none⟩)) := by
  have hgen : ∀ (ds : List Doc) (b : GetBody) (i : Int), decodeGetBody b = some i →
      (∀ d ∈ ds, d.id ≠ i) → handleGet ds false b = (ds, ⟨404, none⟩) := by
    intro ds b i hb h
    simp [handleGet, hb, findOneByID_of_absent h]
  refine ⟨hgen docs body id, fun hmax => hgen _ _ ((calls.length : Int) + 1) ?_ ?_⟩
  · exact decodeGetBody_id (by unfold minInt; omega) hmax
  · intro d hd
    have := runCreates_ids_le calls [] 0 (le_refl _) (by simp) d hd
    omega

/-- C4 (amended) on the test's scenario: after the three creates, the get of
id 4 answers 404. -/
theorem get_absent_id_not_found_witness :
    decodeGetBody (.id 4) = some 4 ∧ (∀ d ∈ docsOfThree, d.id ≠ 4) ∧
    handleGet docsOfThree false (.id 4) = (docsOfThree, ⟨404, none⟩) ∧
    (threeCreates.length : Int) + 1 ≤ maxInt ∧
    handleGet (runCreates [] threeCreates).1 false (.id (threeCreates.length + 1)) =
      ((runCreates [] threeCreates).1, ⟨404, none⟩) :=
  ⟨rfl, by decide,
   (get_absent_id_not_found docsOfThree (.id 4) 4 threeCreates).1 rfl (by decide),
   by decide,
   (get_absent_id_not_found docsOfThree (.id 4) 4 threeCreates).2 (by decide)⟩

/-! ## Sequential creates from the empty collection (C2) -/

/-- C2: for every `n` that is a Go `int`, as the IDs `1, ..., n` are
(`n ≤ 2^63 - 1`), `n` successful create requests served one after another on
the empty collection return the IDs `1, 2, ..., n` in that order, and afterwards
the collection holds exactly `n` documents, all problems, whose IDs are
`1, ..., n` in order. -/
theorem creates_return_consecutive_ids (calls : List (Env × Option Problem))
    (hmax : (calls.length : Int) ≤ maxInt)
    (hok : ∀ r ∈ (runCreates [] calls).2, r.status = 200) :
    (runCreates [] calls).2.map (fun r => r.body.map (fun q => q.ID)) =
      (idsUpTo calls.length).map some ∧
    (runCreates [] calls).1.length = calls.length ∧
    (∀ d ∈ (runCreates [] calls).1, ∃ q, d = Doc.problem q) ∧
    (runCreates [] calls).1.map Doc.id = idsUpTo calls.length := by
  obtain ⟨cs, rfl, hseq⟩ := runCreates_seq calls [] 0 rfl (by push_cast; omega) hok
  simp only [List.map_nil, List.nil_append, Nat.cast_zero] at hseq
  simp only [List.length_map]
  have hids : (stampFrom 0 cs).map (fun q : Problem => q.ID) = idsUpTo cs.length := by
    have := map_ID_stampFrom cs 0
    simpa [idsUpTo] using this
  rw [hseq]
  refine ⟨?_, by simp [length_stampFrom], ?_, ?_⟩
  · rw [← hids]
    simp [ok200, Function.comp_def]
  · intro d hd
    obtain ⟨q, _, rfl⟩ := List.mem_map.mp hd
    exact ⟨q, rfl⟩
  · rw [← hids]
    simp [Doc.id, Function.comp_def]

/-- C2 on the test's three creates: they return 1, 2, 3 and leave three
problems with these IDs. -/
theorem creates_return_consecutive_ids_witness :
    (threeCreates.length : Int) ≤ maxInt ∧
    (∀ r ∈ (runCreates [] threeCreates).2, r.status = 200) ∧
    (runCreates [] threeCreates).2.map (fun r => r.body.map (fun q => q.ID)) =
      (idsUpTo threeCreates.length).map some ∧
    (runCreates [] threeCreates).1.length = threeCreates.length ∧
    (∀ d ∈ (runCreates [] threeCreates).1, ∃ q, d = Doc.problem q) ∧
    (runCreates [] threeCreates).1.map Doc.id = idsUpTo threeCreates.length :=
  ⟨by decide, by decide,
   creates_return_consecutive_ids threeCreates (by decide) (by decide)⟩

/-! ## Create then get (C3) -/

/-- C3, as stated, fails when the read of the get fails: after the test's three
successful creates, a get request for id 2 whose `FindOne` fails is answered
500, not 200 with the second problem. -/
theorem get_after_creates_read_fails :
    (∀ r ∈ (runCreates [] threeCreates).2, r.status = 200) ∧
    decodeGetBody (.id 2) = some 2 ∧
    handleGet (runCreates [] threeCreates).1 true (.id 2) =
      ((runCreates [] threeCreates).1, ⟨500, none⟩) :=
  ⟨by decide, rfl, by decide⟩

/-- C3 (amended): for every `n ≥ 1` and every `i` with `1 ≤ i ≤ n`, after `n`
sequential successful creates on the empty collection, a get request for id
`i` (a request whose body decodes to the ID `i`) whose store read completes
answers 200 with the problem that the `i`-th create stored and returned: the
body of the `i`-th request with ID `i` and the storage identity generated for
it. -/
theorem get_returns_created (calls : List (Env × Option Problem)) (i : Nat)
    (body : GetBody)
    (hok : ∀ r ∈ (runCreates [] calls).2, r.status = 200)
    (h1 : 1 ≤ i) (hn : i ≤ calls.length) (hbody : decodeGetBody body = some (i : Int)) :
    ∃ (env : Env) (p q : Problem),
      calls[i - 1]? = some (env, some p) ∧
      q = { p with ID := i, ObjectId := env.newObjectID } ∧
      (runCreates [] calls).2[i - 1]? = some ⟨200, some q⟩ ∧
      (runCreates [] calls).1[i - 1]? = some (.problem q) ∧
      handleGet (runCreates [] calls).1 false body =
        ((runCreates [] calls).1, ⟨200, some q⟩) := by
  have hi : (i : Int) ≤ maxInt := (decodeGetBody_inRange hbody).2
  obtain ⟨j, rfl⟩ : ∃ j, i = j + 1 := ⟨i - 1, by omega⟩
  simp only [Nat.add_sub_cancel]
  have hlen : (calls.take (j + 1)).length = j + 1 := List.length_take_of_le hn
  have happ := runCreates_append (calls.take (j + 1)) (calls.drop (j + 1)) []
  rw [List.take_append_drop] at happ
  have hok1 : ∀ r ∈ (runCreates [] (calls.take (j + 1))).2, r.status = 200 := by
    intro r hr
    apply hok
    rw [happ]
    exact List.mem_append_left _ hr
  obtain ⟨cs, hcs, hseq⟩ := runCreates_seq (calls.take (j + 1)) [] 0 rfl
    (by rw [hlen]; push_cast; omega) hok1
  simp only [List.map_nil, List.nil_append, Nat.cast_zero] at hseq
  have hcslen : cs.length = j + 1 := by
    rw [← hlen, hcs, List.length_map]
  have hjlt : j < cs.length := by omega
  have hc : cs[j]? = some cs[j] := List.getElem?_eq_getElem hjlt
  obtain ⟨extra, hextra⟩ := runCreates_prefix (calls.drop (j + 1))
    ((stampFrom 0 cs).map Doc.problem)
  have harith : (0 : Int) + 1 + (j : Int) = ((j + 1 : Nat) : Int) := by push_cast; ring
  have hst : (stampFrom 0 cs)[j]? =
      some ({ cs[j].2 with ID := ((j + 1 : Nat) : Int), ObjectId := cs[j].1 } : Problem) := by
    rw [stampFrom_getElem?, hc]
    simp only [Option.map_some', Option.some.injEq]
    rw [harith]
  have hfind := find?_stampFrom cs 0 j cs[j] hc
  rw [harith] at hfind
  have hjlen : j < (stampFrom 0 cs).length := by
    rw [length_stampFrom]; exact hjlt
  have hcall : calls[j]? = some (toCall cs[j]) := by
    have : calls[j]? = (calls.take (j + 1))[j]? := List.getElem?_take_of_succ.symm
    rw [this, hcs, List.getElem?_map, hc]
    rfl
  rw [happ, hseq]
  simp only [hextra]
  refine ⟨okEnv cs[j].1, cs[j].2, _, hcall, rfl, ?_, ?_, ?_⟩
  · rw [List.getElem?_append_left (by rw [List.length_map]; exact hjlen),
      List.getElem?_map, hst]
    rfl
  · rw [List.getElem?_append_left (by rw [List.length_map]; exact hjlen),
      List.getElem?_map, hst]
    rfl
  · simp only [handleGet, hbody, findOneByID, Bool.false_eq_true, if_false,
      List.find?_append, hfind, Option.or_some, decodeDoc]
    rfl

/-- C3 (amended) on the test's scenario: after the three creates, the get of
id 2 answers 200 with the problem titled `"Problem 2"`. -/
theorem get_returns_created_witness :
    (∀ r ∈ (runCreates [] threeCreates).2, r.status = 200) ∧
    1 ≤ 2 ∧ 2 ≤ threeCreates.length ∧ decodeGetBody (.id 2) = some ((2 : Nat) : Int) ∧
    ∃ (env : Env) (p q : Problem),
      threeCreates[2 - 1]? = some (env, some p) ∧
      q = { p with ID := (2 : Nat), ObjectId := env.newObjectID } ∧
      (runCreates [] threeCreates).2[2 - 1]? = some ⟨200, some q⟩ ∧
      (runCreates [] threeCreates).1[2 - 1]? = some (.problem q) ∧
      handleGet (runCreates [] threeCreates).1 false (.id 2) =
        ((runCreates [] threeCreates).1, ⟨200, some q⟩) :=
  ⟨by decide, by decide, by decide, rfl,
   get_returns_created threeCreates 2 (.id 2) (by decide) (by decide) (by decide) rfl⟩

/-! ## Two concurrent creates (C6) -/

/-- The two store calls of one request, run back to back, are the handler. -/
theorem handleCreate_eq_steps (docs : List Doc) (env : Env) (p : Problem) :
    CreateReq.step env (CreateReq.step env docs (.decoded p)).1
        (CreateReq.step env docs (.decoded p)).2 =
      ((handleCreate docs env (some p)).1, .finished (handleCreate docs env (some p)).2) := by
  rcases findOneSorted_cases docs env.findFails with
    ⟨_, he⟩ | ⟨_, _, he⟩ | ⟨_, last, he, _, _⟩ | ⟨_, he, _⟩
  · simp [CreateReq.step, handleCreate, he]
  · simp [CreateReq.step, handleCreate, he]
  · simp [CreateReq.step, handleCreate, he]
  · simp [CreateReq.step, handleCreate, he]

theorem step_decoded_cases (env : Env) (docs : List Doc) (p : Problem) :
    CreateReq.step env docs (.decoded p) = (docs, .finished ⟨500, none⟩) ∨
    ∃ id, IsNextID docs id ∧
      CreateReq.step env docs (.decoded p) =
        (docs, .prepared { p with ID := id, ObjectId := env.newObjectID }) := by
  rcases findOneSorted_cases docs env.findFails with
    ⟨_, he⟩ | ⟨_, hnil, he⟩ | ⟨_, last, he, hmem, hmax⟩ | ⟨_, he, _⟩
  · left; simp [CreateReq.step, he]
  · right; exact ⟨1, Or.inl ⟨hnil, rfl⟩, by simp [CreateReq.step, he]⟩
  · right
    exact ⟨_, Or.inr ⟨last, hmem, hmax, rfl⟩, by simp [CreateReq.step, he]⟩
  · left; simp [CreateReq.step, he]

/-- The read leaves the collection as it is. -/
theorem step_decoded_fst (env : Env) (docs : List Doc) (p : Problem) :
    (CreateReq.step env docs (.decoded p)).1 = docs := by
  rcases step_decoded_cases env docs p with h | ⟨_, _, h⟩ <;> rw [h]

/-- A request whose insert step ends with a created problem created the
prepared one, and the collection gained exactly it. -/
theorem step_prepared_created {env : Env} {docs : List Doc} {q : Problem} {id : Int}
    (h : (CreateReq.step env docs (.prepared q)).2.createdID = some id) :
    id = q.ID ∧ (CreateReq.step env docs (.prepared q)).1 = docs ++ [.problem q] := by
  rcases insertAndRespond_cases docs env.insertFault q with ⟨_, _, he⟩ | he | ⟨_, he⟩
  · simp only [CreateReq.step, he, CreateReq.createdID, Option.some.injEq] at h ⊢
    exact ⟨h.symm, trivial⟩
  · simp [CreateReq.step, he, CreateReq.createdID] at h
  · simp [CreateReq.step, he, CreateReq.createdID] at h

theorem step_finished (env : Env) (docs : List Doc) (r : Response) :
    CreateReq.step env docs (.finished r) = (docs, .finished r) :=
  rfl

/-- Two reads of the same collection allocate the same ID. -/
theorem isNextID_unique {docs : List Doc} {a b : Int}
    (ha : IsNextID docs a) (hb : IsNextID docs b) : a = b := by
  rcases ha with ⟨_, rfl⟩ | ⟨la, hla, hma, rfl⟩ <;> rcases hb with ⟨hn, rfl⟩ | ⟨lb, hlb, hmb, rfl⟩
  · rfl
  · rename_i hn'
    rw [hn'] at hlb
    cases hlb
  · rw [hn] at hla
    cases hla
  · have h1 := hma _ hlb
    have h2 := hmb _ hla
    simp only [Doc.id] at h1 h2
    have : la.ID = lb.ID := by omega
    rw [this]

/-- Below the overflow, the ID allocated after the insert of a problem with the
allocated ID is a different one. -/
theorem isNextID_next_ne {docs : List Doc} {a b : Int} (q : Problem)
    (hb : BelowMaxInt docs) (ha : IsNextID docs a) (hq : q.ID = a)
    (hnext : IsNextID (docs ++ [.problem q]) b) : a ≠ b := by
  have hlt : ∀ d ∈ docs, d.id < a := by
    rcases ha with ⟨hn, _⟩ | ⟨la, hla, hma, rfl⟩
    · intro d hd
      rw [hn] at hd
      cases hd
    · intro d hd
      have hl := hb _ hla
      simp only [Doc.id] at hl
      rw [wrapInt_of_inRange _ (by omega) (by omega)]
      have := hma d hd
      omega
  rcases hnext with ⟨hn, _⟩ | ⟨lb, hlb, hmb, rfl⟩
  · simp at hn
  · have hqle := hmb (.problem q) (by simp)
    simp only [Doc.id] at hqle
    have hlbq : lb.ID = a := by
      rcases List.mem_append.mp hlb with h | h
      · have := hlt _ h
        simp only [Doc.id] at this
        omega
      · simp only [List.mem_singleton, Doc.problem.injEq] at h
        rw [h, hq]
    rw [hlbq]
    exact (wrapInt_succ_ne a).symm

/-- The six interleavings of two requests of two store calls each. -/
theorem isInterleaving_cases {sched : List Bool} (h : IsInterleaving sched) :
    IsSerial sched ∨
    (sched = [false, true, false, true] ∨ sched = [false, true, true, false] ∨
     sched = [true, false, false, true] ∨ sched = [true, false, true, false]) := by
  unfold IsInterleaving at h
  unfold IsSerial
  rcases sched with _ | ⟨a, _ | ⟨b, _ | ⟨c, _ | ⟨d, _ | ⟨e, rest⟩⟩⟩⟩⟩
  · simp at h
  · cases a <;> simp at h
  · cases a <;> cases b <;> simp at h
  · cases a <;> cases b <;> cases c <;> simp at h
  · cases a <;> cases b <;> cases c <;> cases d <;> simp at h ⊢
  · cases a <;> cases b <;> cases c <;> cases d <;> cases e <;>
      simp [List.count_cons] at h

/-- When both reads come before both inserts, two successful creates store
their problems under the same ID. -/
theorem race_reads_first_same_id (docs : List Doc) (envA envB : Env) (pA pB : Problem)
    (sched : List Bool) (idA idB : Int)
    (hs : sched = [false, true, false, true] ∨ sched = [false, true, true, false] ∨
      sched = [true, false, false, true] ∨ sched = [true, false, true, false])
    (hA : (Race.run envA envB ⟨docs, .decoded pA, .decoded pB⟩ sched).first.createdID
      = some idA)
    (hB : (Race.run envA envB ⟨docs, .decoded pA, .decoded pB⟩ sched).second.createdID
      = some idB) : idA = idB := by
  rcases step_decoded_cases envA docs pA with hA1 | ⟨a, ha, hA1⟩
  · rcases hs with rfl | rfl | rfl | rfl <;>
      simp [Race.run, Race.step, step_decoded_fst, hA1, step_finished,
        CreateReq.createdID] at hA
  · rcases step_decoded_cases envB docs pB with hB1 | ⟨b, hbn, hB1⟩
    · rcases hs with rfl | rfl | rfl | rfl <;>
        simp [Race.run, Race.step, step_decoded_fst, hA1, hB1, step_finished,
          CreateReq.createdID] at hB
    · have hab := isNextID_unique ha hbn
      rcases hs with rfl | rfl | rfl | rfl <;>
        simp only [Race.run, Race.step, step_decoded_fst, hA1, hB1, Bool.false_eq_true,
          if_false, if_true] at hA hB <;>
        have h1 := (step_prepared_created hA).1 <;>
        have h2 := (step_prepared_created hB).1 <;>
        simp only at h1 h2 <;>
        omega

/-- When one request has inserted before the other reads, two successful
creates on a collection below the overflow store their problems under
different IDs. -/
theorem race_serial_distinct_ids (docs : List Doc) (envA envB : Env) (pA pB : Problem)
    (sched : List Bool) (idA idB : Int) (hb : BelowMaxInt docs) (hs : IsSerial sched)
    (hA : (Race.run envA envB ⟨docs, .decoded pA, .decoded pB⟩ sched).first.createdID
      = some idA)
    (hB : (Race.run envA envB ⟨docs, .decoded pA, .decoded pB⟩ sched).second.createdID
      = some idB) : idA ≠ idB := by
  rcases hs with rfl | rfl
  · rcases step_decoded_cases envA docs pA with hA1 | ⟨a, ha, hA1⟩
    · simp [Race.run, Race.step, hA1, step_finished, CreateReq.createdID] at hA
    · simp only [Race.run, Race.step, hA1, Bool.false_eq_true, if_false, if_true] at hA hB
      obtain ⟨hida, hdocs⟩ := step_prepared_created hA
      rw [hdocs] at hB
      rcases step_decoded_cases envB
          (docs ++ [.problem { pA with ID := a, ObjectId := envA.newObjectID }]) pB with
          hB1 | ⟨b, hbn, hB1⟩
      · simp [hB1, step_finished, CreateReq.createdID] at hB
      · simp only [hB1] at hB
        have hidb := (step_prepared_created hB).1
        have hne := isNextID_next_ne _ hb ha rfl hbn
        simp only at hida hidb
        omega
  · rcases step_decoded_cases envB docs pB with hB1 | ⟨b, hbn, hB1⟩
    · simp [Race.run, Race.step, hB1, step_finished, CreateReq.createdID] at hB
    · simp only [Race.run, Race.step, hB1, Bool.false_eq_true, if_false, if_true] at hA hB
      obtain ⟨hidb, hdocs⟩ := step_prepared_created hB
      rw [hdocs] at hA
      rcases step_decoded_cases envA
          (docs ++ [.problem { pB with ID := b, ObjectId := envB.newObjectID }]) pA with
          hA1 | ⟨a, ha, hA1⟩
      · simp [hA1, step_finished, CreateReq.createdID] at hA
      · simp only [hA1] at hA
        have hida := (step_prepared_created hA).1
        have hne := isNextID_next_ne _ hb hbn rfl ha
        simp only at hida hidb
        omega

/-- C6, as stated, fails: on the empty collection, when both requests read
before either inserts, both creates are answered 200 and both problems are
stored under the ID 1. -/
theorem concurrent_creates_share_id :
    IsInterleaving [false, true, false, true] ∧
    (Race.run (okEnv 101) (okEnv 102)
      ⟨[], .decoded (titled "Problem 1"), .decoded (titled "Problem 2")⟩
      [false, true, false, true]).first.createdID = some 1 ∧
    (Race.run (okEnv 101) (okEnv 102)
      ⟨[], .decoded (titled "Problem 1"), .decoded (titled "Problem 2")⟩
      [false, true, false, true]).second.createdID = some 1 ∧
    (Race.run (okEnv 101) (okEnv 102)
      ⟨[], .decoded (titled "Problem 1"), .decoded (titled "Problem 2")⟩
      [false, true, false, true]).docs.map Doc.id = [1, 1] :=
  ⟨⟨rfl, rfl⟩, by decide, by decide, by decide⟩

/-- C6 (amended): for every interleaving of two create requests on a collection
whose stored IDs are Go `int`s below `2^63 - 1`, if both requests create their
problem, the two problems receive different IDs exactly when the interleaving
is serial (one request inserts before the other reads); in the four
interleavings where both reads precede both inserts they receive the same ID. -/
theorem concurrent_creates_distinct_iff_serial (docs : List Doc) (envA envB : Env)
    (pA pB : Problem) (sched : List Bool) (idA idB : Int)
    (hb : BelowMaxInt docs) (hs : IsInterleaving sched)
    (hA : (Race.run envA envB ⟨docs, .decoded pA, .decoded pB⟩ sched).first.createdID
      = some idA)
    (hB : (Race.run envA envB ⟨docs, .decoded pA, .decoded pB⟩ sched).second.createdID
      = some idB) : idA ≠ idB ↔ IsSerial sched := by
  rcases isInterleaving_cases hs with hser | hracy
  · exact ⟨fun _ => hser,
      fun _ => race_serial_distinct_ids docs envA envB pA pB sched idA idB hb hser hA hB⟩
  · have heq := race_reads_first_same_id docs envA envB pA pB sched idA idB hracy hA hB
    have hns : ¬ IsSerial sched := by
      rcases hracy with rfl | rfl | rfl | rfl <;> decide
    exact ⟨fun h => absurd heq h, fun h => absurd h hns⟩

/-- C6 (amended) after the test's three problems: served one after the other,
two creates store their problems under 4 and 5. -/
theorem concurrent_creates_distinct_iff_serial_witness :
    BelowMaxInt docsOfThree ∧ IsInterleaving [false, false, true, true] ∧
    (Race.run (okEnv 104) (okEnv 105)
      ⟨docsOfThree, .decoded (titled "Problem 4"), .decoded (titled "Problem 5")⟩
      [false, false, true, true]).first.createdID = some 4 ∧
    (Race.run (okEnv 104) (okEnv 105)
      ⟨docsOfThree, .decoded (titled "Problem 4"), .decoded (titled "Problem 5")⟩
      [false, false, true, true]).second.createdID = some 5 ∧
    ((4 : Int) ≠ 5 ↔ IsSerial [false, false, true, true]) :=
  ⟨by decide, by decide, by decide, by decide,
   concurrent_creates_distinct_iff_serial docsOfThree (okEnv 104) (okEnv 105)
     (titled "Problem 4") (titled "Problem 5") [false, false, true, true] 4 5
     (by decide) (by decide) (by decide) (by decide)⟩

end Pioj
